import Mathlib

/-!
Verification of the socks5man proxy-record store
(src/socks5man/database.py) against its specification.

The SQLite-backed `Database` class is shallowly embedded: the `socks5s`
table becomes a list of records in insertion (rowid) order, the
autoincrement primary key becomes an explicit counter, timestamps
(`datetime.now()`) become natural numbers passed in as an explicit `now`
argument, and SQL floats become rationals.  Python argument truthiness
(`if country:`) and SQLite NULL semantics (NULL fails every comparison,
NULL sorts smallest) are modelled explicitly.
-/

/-- A SOCKS5 proxy record, mirroring the columns of the `socks5s` table.
Nullable columns are wrapped in `Option`; timestamps are naturals and SQL
floats are rationals. -/
structure Socks5 where
  id : Nat
  host : String
  port : Nat
  country : String
  country_code : String
  city : Option String
  username : Option String
  password : Option String
  added_on : Nat
  last_use : Option Nat
  last_check : Option Nat
  operational : Bool
  bandwidth : Option Rat
  connect_time : Option Rat
  description : Option String
deriving DecidableEq, Repr

/-- The proxy store: rows of the `socks5s` table in insertion order, plus
the next autoincrement primary-key value. -/
structure Database where
  socks5s : List Socks5
  next_id : Nat
deriving DecidableEq, Repr

/-- Truthiness of an optional string argument as Python evaluates it in a
guard such as `if country:` — `None` and the empty string are falsy. -/
def truthyStr : Option String → Bool
  | none => false
  | some s => !(s == "")

/-- Truthiness of an optional float argument as Python evaluates it in a
guard such as `if min_mbps_down:` — `None` and `0.0` are falsy. -/
def truthyFloat : Option Rat → Bool
  | none => false
  | some q => !(q == 0)

/-- SQLite ordering on a nullable timestamp column: NULL is smaller than
every non-NULL value, so it sorts first in ASC and last in DESC. -/
def optLe : Option Nat → Option Nat → Bool
  | none, _ => true
  | some _, none => false
  | some a, some b => decide (a ≤ b)

/-- The comparator realised by `ORDER BY last_use ASC, last_check DESC`
under SQLite NULL ordering. -/
def findLe (a b : Socks5) : Bool :=
  if a.last_use = b.last_use then optLe b.last_check a.last_check
  else optLe a.last_use b.last_use

/-- One `filter_by` equality filter on a non-nullable string column, applied
only when the argument is truthy (the `if country:` guard). -/
def strFilter (arg : Option String) (field : String) : Bool :=
  if truthyStr arg then arg == some field else true

/-- One `filter_by` equality filter on a nullable string column: under SQL
semantics a NULL column matches no equality comparison. -/
def nullableStrFilter (arg : Option String) (field : Option String) : Bool :=
  if truthyStr arg then field == arg else true

/-- The filter `Socks5.bandwidth >= min_mbps_down`, applied only when the
argument is truthy; a NULL column fails the SQL comparison. -/
def minBandwidthFilter (arg : Option Rat) (field : Option Rat) : Bool :=
  if truthyFloat arg then
    match arg, field with
    | some m, some b => decide (m ≤ b)
    | _, _ => false
  else true

/-- The filter `Socks5.connect_time <= max_connect_time`, applied only when
the argument is truthy; a NULL column fails the SQL comparison. -/
def maxConnectTimeFilter (arg : Option Rat) (field : Option Rat) : Bool :=
  if truthyFloat arg then
    match arg, field with
    | some m, some c => decide (c ≤ m)
    | _, _ => false
  else true

/-- Row predicate accumulated by `Database.list_socks5` (lines 125-130):
AND-combined equality filters, each applied only when truthy. -/
def listMatch (country country_code city : Option String) (r : Socks5) : Bool :=
  strFilter country r.country &&
  strFilter country_code r.country_code &&
  nullableStrFilter city r.city

/-- Row predicate accumulated by `Database.find_socks5` (lines 171-181):
the unconditional `operational=True` filter followed by the guarded
equality and range filters. -/
def findMatch (country country_code city : Option String)
    (min_mbps_down max_connect_time : Option Rat) (r : Socks5) : Bool :=
  r.operational &&
  strFilter country r.country &&
  strFilter country_code r.country_code &&
  nullableStrFilter city r.city &&
  minBandwidthFilter min_mbps_down r.bandwidth &&
  maxConnectTimeFilter max_connect_time r.connect_time

/-- Embedding of `Database.add_socks5`: builds a fresh row (optional
metric and usage columns NULL, `added_on` stamped now, primary key
assigned by autoincrement) and appends it.  Returns the success flag, the
assigned id, and the updated store. -/
def add_socks5 (db : Database) (now : Nat) (host : String) (port : Nat)
    (country country_code : String) (operational : Bool)
    (city username password description : Option String) :
    Bool × Nat × Database :=
  let socks5 : Socks5 :=
    { id := db.next_id, host := host, port := port, country := country,
      country_code := country_code, city := city, username := username,
      password := password, added_on := now, last_use := none,
      last_check := none, operational := operational, bandwidth := none,
      connect_time := none, description := description }
  (true, db.next_id,
    { socks5s := db.socks5s ++ [socks5], next_id := db.next_id + 1 })

/-- Embedding of `Database.remove_socks5`: DELETE of all rows with the
given id; deleting zero rows is still a success. -/
def remove_socks5 (db : Database) (id : Nat) : Bool × Database :=
  (true, { db with socks5s := db.socks5s.filter (fun r => !(r.id == id)) })

/-- Embedding of `Database.list_socks5`: guarded equality filters, then
LIMIT, in storage order (no ORDER BY). -/
def list_socks5 (db : Database) (country country_code city : Option String)
    (limit : Nat) : List Socks5 :=
  (db.socks5s.filter (listMatch country country_code city)).take limit

/-- Embedding of `Database.view_socks5`: primary-key lookup. -/
def view_socks5 (db : Database) (socks5_id : Nat) : Option Socks5 :=
  db.socks5s.find? (fun r => r.id == socks5_id)

/-- The pure query of `Database.find_socks5` (lines 170-185): filters,
`ORDER BY last_use ASC, last_check DESC`, LIMIT. -/
def find_select (db : Database) (country country_code city : Option String)
    (min_mbps_down max_connect_time : Option Rat) (limit : Nat) :
    List Socks5 :=
  ((db.socks5s.filter
      (findMatch country country_code city min_mbps_down
        max_connect_time)).mergeSort findLe).take limit

/-- The usage stamp `s.last_use = datetime.now()` applied to a selected
row (line 189). -/
def stampUsage (now : Nat) (r : Socks5) : Socks5 :=
  { r with last_use := some now }

/-- Embedding of `Database.find_socks5`: run the query; when
`update_usage` holds and the result is non-empty, stamp `last_use = now`
on every selected row, commit, and return the refreshed rows. -/
def find_socks5 (db : Database) (now : Nat)
    (country country_code city : Option String)
    (min_mbps_down max_connect_time : Option Rat)
    (update_usage : Bool) (limit : Nat) : List Socks5 × Database :=
  let result := find_select db country country_code city min_mbps_down
    max_connect_time limit
  if update_usage && !result.isEmpty then
    let ids := result.map (fun r => r.id)
    let stamped := db.socks5s.map
      (fun r => if ids.contains r.id then stampUsage now r else r)
    (result.map (stampUsage now), { db with socks5s := stamped })
  else (result, db)

/-- Embedding of `Database.set_operational`: no-op when the id is absent;
otherwise set `operational` and stamp `last_check = now` in the same
committed step. -/
def set_operational (db : Database) (now : Nat) (socks5_id : Nat)
    (operational : Bool) : Database :=
  match db.socks5s.find? (fun r => r.id == socks5_id) with
  | none => db
  | some _ =>
    { db with socks5s := db.socks5s.map (fun r =>
        if r.id == socks5_id then
          { r with operational := operational, last_check := some now }
        else r) }

/-- Embedding of `Database.set_connect_time`: an UPDATE of the single
column `connect_time` on the rows matching the id (possibly none). -/
def set_connect_time (db : Database) (socks5_id : Nat)
    (connect_time : Rat) : Database :=
  { db with socks5s := db.socks5s.map (fun r =>
      if r.id == socks5_id then { r with connect_time := some connect_time }
      else r) }

/-- Embedding of `Database.set_approx_bandwidth`: an UPDATE of the single
column `bandwidth` on the rows matching the id (possibly none). -/
def set_approx_bandwidth (db : Database) (socks5_id : Nat)
    (bandwidth : Rat) : Database :=
  { db with socks5s := db.socks5s.map (fun r =>
      if r.id == socks5_id then { r with bandwidth := some bandwidth }
      else r) }

/-! Basic properties of the comparator and of the query. -/

theorem optLe_total (a b : Option Nat) : optLe a b || optLe b a := by
  cases a <;> cases b <;> simp [optLe]
  omega

theorem optLe_trans {a b c : Option Nat} (h1 : optLe a b = true)
    (h2 : optLe b c = true) : optLe a c = true := by
  cases a <;> cases b <;> cases c <;> simp_all [optLe]
  omega

theorem optLe_antisymm {a b : Option Nat} (h1 : optLe a b = true)
    (h2 : optLe b a = true) : a = b := by
  cases a <;> cases b <;> simp_all [optLe]
  omega

theorem findLe_total (a b : Socks5) : findLe a b || findLe b a := by
  unfold findLe
  by_cases h : a.last_use = b.last_use
  · simp [h, optLe_total]
  · simp [h, Ne.symm h, optLe_total]

theorem findLe_trans (a b c : Socks5) (h1 : findLe a b = true)
    (h2 : findLe b c = true) : findLe a c = true := by
  unfold findLe at h1 h2 ⊢
  by_cases hab : a.last_use = b.last_use <;>
    by_cases hbc : b.last_use = c.last_use
  · rw [if_pos hab] at h1
    rw [if_pos hbc] at h2
    rw [if_pos (hab.trans hbc)]
    exact optLe_trans h2 h1
  · rw [if_neg hbc] at h2
    have hac : a.last_use ≠ c.last_use := fun h => hbc (hab ▸ h)
    rw [if_neg hac, hab]
    exact h2
  · rw [if_neg hab] at h1
    have hac : a.last_use ≠ c.last_use := fun h => hab (h.trans hbc.symm)
    rw [if_neg hac, ← hbc]
    exact h1
  · rw [if_neg hab] at h1
    rw [if_neg hbc] at h2
    by_cases hac : a.last_use = c.last_use
    · exact absurd (optLe_antisymm h1 (by rw [hac]; exact h2)) hab
    · rw [if_neg hac]
      exact optLe_trans h1 h2

theorem findMatch_operational {co cc ci : Option String} {mb mc : Option Rat}
    {r : Socks5} (h : findMatch co cc ci mb mc r = true) :
    r.operational = true := by
  simp only [findMatch, Bool.and_eq_true] at h
  exact h.1.1.1.1.1

theorem mem_find_select {db : Database} {co cc ci : Option String}
    {mb mc : Option Rat} {lim : Nat} {r : Socks5}
    (h : r ∈ find_select db co cc ci mb mc lim) :
    findMatch co cc ci mb mc r = true ∧ r ∈ db.socks5s := by
  unfold find_select at h
  have h1 : r ∈ (db.socks5s.filter
      (findMatch co cc ci mb mc)).mergeSort findLe := by
    exact List.mem_of_mem_take h
  rw [List.mem_mergeSort] at h1
  exact ⟨List.of_mem_filter h1, List.mem_of_mem_filter h1⟩

theorem find_socks5_fst (db : Database) (now : Nat)
    (co cc ci : Option String) (mb mc : Option Rat) (u : Bool) (lim : Nat) :
    (find_socks5 db now co cc ci mb mc u lim).1 =
      if u && !(find_select db co cc ci mb mc lim).isEmpty then
        (find_select db co cc ci mb mc lim).map (stampUsage now)
      else find_select db co cc ci mb mc lim := by
  simp only [find_socks5]
  split <;> rfl

theorem find_socks5_snd (db : Database) (now : Nat)
    (co cc ci : Option String) (mb mc : Option Rat) (u : Bool) (lim : Nat) :
    (find_socks5 db now co cc ci mb mc u lim).2 =
      if u && !(find_select db co cc ci mb mc lim).isEmpty then
        { db with socks5s := db.socks5s.map (fun r =>
            if ((find_select db co cc ci mb mc lim).map
                (fun s => s.id)).contains r.id
            then stampUsage now r else r) }
      else db := by
  simp only [find_socks5]
  split <;> rfl

/-- Record used by concrete witnesses: an operational German proxy. -/
def rA : Socks5 :=
  { id := 1, host := "1.2.3.4", port := 1080, country := "Germany",
    country_code := "DE", city := none, username := none, password := none,
    added_on := 0, last_use := none, last_check := none, operational := true,
    bandwidth := some 50, connect_time := some 1, description := none }

/-- C1: for every store state and every combination of filters, every
record returned by find_socks5 has operational = true; a non-operational
record is never returned. -/
theorem C1_find_socks5_only_operational (db : Database) (now : Nat)
    (co cc ci : Option String) (mb mc : Option Rat) (u : Bool) (lim : Nat)
    (r : Socks5)
    (h : r ∈ (find_socks5 db now co cc ci mb mc u lim).1) :
    r.operational = true := by
  rw [find_socks5_fst] at h
  split at h
  · obtain ⟨r', hr', rfl⟩ := List.mem_map.mp h
    exact findMatch_operational (mem_find_select hr').1
  · exact findMatch_operational (mem_find_select h).1

/-- Concrete evaluation of the query on a one-record store with no
filters. -/
theorem find_select_rA :
    find_select ⟨[rA], 2⟩ none none none none none 1 = [rA] := by
  simp [find_select, findMatch, rA, strFilter, nullableStrFilter,
    minBandwidthFilter, maxConnectTimeFilter, truthyStr, truthyFloat,
    List.filter]

/-- Witness for C1: on a one-record store the returned (usage-stamped)
record is operational. -/
theorem C1_witness :
    stampUsage 5 rA ∈ (find_socks5 ⟨[rA], 2⟩ 5 none none none none none
      true 1).1 ∧ (stampUsage 5 rA).operational = true := by
  refine ⟨by rw [find_socks5_fst, find_select_rA]; decide, ?_⟩
  exact C1_find_socks5_only_operational ⟨[rA], 2⟩ 5 none none none none none
    true 1 (stampUsage 5 rA)
    (by rw [find_socks5_fst, find_select_rA]; decide)

/-- Mapping a guarded per-id update over rows none of which carry the id
leaves the list unchanged. -/
theorem map_update_eq_self {l : List Socks5} {id : Nat}
    (h : ∀ r ∈ l, r.id ≠ id) (g : Socks5 → Socks5) :
    l.map (fun r => if r.id == id then g r else r) = l := by
  induction l with
  | nil => rfl
  | cons a t ih =>
    have ha : a.id ≠ id := h a (List.mem_cons_self a t)
    rw [List.map_cons, ih (fun r hr => h r (List.mem_cons_of_mem a hr))]
    congr 1
    simp [ha]

/-- C8: removing an id that is not present succeeds and leaves the store
exactly unchanged. -/
theorem C8_remove_absent_id (db : Database) (id : Nat)
    (h : ∀ r ∈ db.socks5s, r.id ≠ id) :
    remove_socks5 db id = (true, db) := by
  unfold remove_socks5
  have hf : db.socks5s.filter (fun r => !(r.id == id)) = db.socks5s :=
    List.filter_eq_self.mpr (fun r hr => by simp [h r hr])
  rw [hf]

/-- Witness for C8 on a one-record store and a foreign id. -/
theorem C8_witness : remove_socks5 ⟨[rA], 2⟩ 99 = (true, ⟨[rA], 2⟩) :=
  C8_remove_absent_id ⟨[rA], 2⟩ 99 (by decide)

/-- C10: the metric updates on an absent id return normally and leave the
store unchanged (the UPDATE matches zero rows). -/
theorem C10_set_metrics_absent_id (db : Database) (id : Nat) (v w : Rat)
    (h : ∀ r ∈ db.socks5s, r.id ≠ id) :
    set_connect_time db id v = db ∧ set_approx_bandwidth db id w = db := by
  constructor
  · unfold set_connect_time
    rw [map_update_eq_self h]
  · unfold set_approx_bandwidth
    rw [map_update_eq_self h]

/-- Witness for C10 on a one-record store and a foreign id. -/
theorem C10_witness :
    set_connect_time ⟨[rA], 2⟩ 99 3 = ⟨[rA], 2⟩ ∧
    set_approx_bandwidth ⟨[rA], 2⟩ 99 4 = ⟨[rA], 2⟩ :=
  C10_set_metrics_absent_id ⟨[rA], 2⟩ 99 3 4 (by decide)

/-- C7: set_connect_time changes only the connect_time column of the rows
carrying the given id, and set_approx_bandwidth only the bandwidth
column; every other field and every other record is untouched, as is the
id counter. -/
theorem C7_set_metrics_frame (db : Database) (id : Nat) (v w : Rat) :
    List.Forall₂ (fun old new =>
        (old.id ≠ id → new = old) ∧
        (old.id = id → new.connect_time = some v ∧ new.id = old.id ∧
          new.host = old.host ∧ new.port = old.port ∧
          new.country = old.country ∧ new.country_code = old.country_code ∧
          new.city = old.city ∧ new.username = old.username ∧
          new.password = old.password ∧ new.added_on = old.added_on ∧
          new.last_use = old.last_use ∧ new.last_check = old.last_check ∧
          new.operational = old.operational ∧
          new.bandwidth = old.bandwidth ∧
          new.description = old.description))
      db.socks5s (set_connect_time db id v).socks5s ∧
    List.Forall₂ (fun old new =>
        (old.id ≠ id → new = old) ∧
        (old.id = id → new.bandwidth = some w ∧ new.id = old.id ∧
          new.host = old.host ∧ new.port = old.port ∧
          new.country = old.country ∧ new.country_code = old.country_code ∧
          new.city = old.city ∧ new.username = old.username ∧
          new.password = old.password ∧ new.added_on = old.added_on ∧
          new.last_use = old.last_use ∧ new.last_check = old.last_check ∧
          new.operational = old.operational ∧
          new.connect_time = old.connect_time ∧
          new.description = old.description))
      db.socks5s (set_approx_bandwidth db id w).socks5s ∧
    (set_connect_time db id v).next_id = db.next_id ∧
    (set_approx_bandwidth db id w).next_id = db.next_id := by
  refine ⟨?_, ?_, rfl, rfl⟩
  · unfold set_connect_time
    rw [List.forall₂_map_right_iff, List.forall₂_same]
    intro a _
    by_cases hid : a.id = id
    · simp [hid]
    · simp [hid]
  · unfold set_approx_bandwidth
    rw [List.forall₂_map_right_iff, List.forall₂_same]
    intro a _
    by_cases hid : a.id = id
    · simp [hid]
    · simp [hid]

/-- C5 counterexample: add_socks5 accepts an operational argument and
stores it without stamping last_check — adding a record with
operational = true to an empty store yields a record whose operational
flag is set while last_check is still NULL, so an operation other than
set_operational does set operational, without last_check being stamped. -/
theorem C5_counterexample :
    (view_socks5 (add_socks5 ⟨[], 1⟩ 7 "1.2.3.4" 1080 "Germany" "DE" true
        none none none none).2.2 1).map
      (fun r => (r.operational, r.last_check)) = some (true, none) := by
  decide

/-- C5 amended: set_operational, on a present id, sets operational and
stamps last_check = now on that record in the same step, changing nothing
else; on an absent id it is a no-op; among the mutation operations on
existing records it is the only one that writes operational — the usage
stamping of find_socks5 and the two metric setters preserve every
record's operational flag, and remove_socks5 only deletes, leaving every
surviving record a record of the original store — but add_socks5 also
sets the operational flag of the record it creates, leaving last_check
NULL. -/
theorem C5_amended_operational_stamp (db : Database) (now : Nat) (id : Nat)
    (op : Bool) :
    List.Forall₂ (fun old new =>
        (old.id ≠ id → new = old) ∧
        (old.id = id → new.operational = op ∧ new.last_check = some now ∧
          new.id = old.id ∧ new.host = old.host ∧ new.port = old.port ∧
          new.country = old.country ∧ new.country_code = old.country_code ∧
          new.city = old.city ∧ new.username = old.username ∧
          new.password = old.password ∧ new.added_on = old.added_on ∧
          new.last_use = old.last_use ∧
          new.bandwidth = old.bandwidth ∧
          new.connect_time = old.connect_time ∧
          new.description = old.description))
      db.socks5s (set_operational db now id op).socks5s ∧
    (set_operational db now id op).next_id = db.next_id ∧
    (∀ (id2 : Nat) (v : Rat),
      List.Forall₂ (fun old new =>
          new.operational = old.operational ∧ new.id = old.id)
        db.socks5s (set_connect_time db id2 v).socks5s) ∧
    (∀ (id2 : Nat) (v : Rat),
      List.Forall₂ (fun old new =>
          new.operational = old.operational ∧ new.id = old.id)
        db.socks5s (set_approx_bandwidth db id2 v).socks5s) ∧
    (∀ (now2 : Nat) (co cc ci : Option String) (mb mc : Option Rat)
        (u : Bool) (lim : Nat),
      List.Forall₂ (fun old new =>
          new.operational = old.operational ∧ new.id = old.id)
        db.socks5s (find_socks5 db now2 co cc ci mb mc u lim).2.socks5s) ∧
    (∀ id3 : Nat, ∀ r ∈ (remove_socks5 db id3).2.socks5s, r ∈ db.socks5s) ∧
    (∀ h p c cc oper ci un pw de,
      ((add_socks5 db now h p c cc oper ci un pw de).2.2.socks5s.getLast?).map
          (fun r => (r.operational, r.last_check)) = some (oper, none)) := by
  refine ⟨?_, ?_, ?_, ?_, ?_, ?_, ?_⟩
  · unfold set_operational
    cases hf : db.socks5s.find? (fun r => r.id == id) with
    | none =>
      rw [List.forall₂_same]
      intro a ha
      have hne : a.id ≠ id := by
        have := List.find?_eq_none.mp hf a ha
        simpa using this
      exact ⟨fun _ => rfl, fun h => absurd h hne⟩
    | some s =>
      rw [List.forall₂_map_right_iff, List.forall₂_same]
      intro a _
      by_cases hid : a.id = id
      · simp [hid]
      · simp [hid]
  · unfold set_operational
    cases hf : db.socks5s.find? (fun r => r.id == id) <;> rfl
  · intro id2 v
    unfold set_connect_time
    rw [List.forall₂_map_right_iff, List.forall₂_same]
    intro a _
    by_cases hid : a.id = id2
    · simp [hid]
    · simp [hid]
  · intro id2 v
    unfold set_approx_bandwidth
    rw [List.forall₂_map_right_iff, List.forall₂_same]
    intro a _
    by_cases hid : a.id = id2
    · simp [hid]
    · simp [hid]
  · intro now2 co cc ci mb mc u lim
    rw [find_socks5_snd]
    split
    · rw [List.forall₂_map_right_iff, List.forall₂_same]
      intro a _
      split
      · exact ⟨rfl, rfl⟩
      · exact ⟨rfl, rfl⟩
    · rw [List.forall₂_same]
      intro a _
      exact ⟨rfl, rfl⟩
  · intro id3 r hr
    exact List.mem_of_mem_filter hr
  · intro h p c cc oper ci un pw de
    simp [add_socks5, List.getLast?_concat]

/-- C9: on a store whose rows all have keys below the autoincrement
counter (true of every store the operations build), add_socks5 succeeds
and view_socks5 of the assigned id returns a record carrying exactly the
supplied values, with NULL for every omitted optional column. -/
theorem C9_add_view_roundtrip (db : Database) (now : Nat) (h : String)
    (p : Nat) (c cc : String) (oper : Bool) (ci un pw de : Option String)
    (hwf : ∀ r ∈ db.socks5s, r.id < db.next_id) :
    (add_socks5 db now h p c cc oper ci un pw de).1 = true ∧
    view_socks5 (add_socks5 db now h p c cc oper ci un pw de).2.2
        (add_socks5 db now h p c cc oper ci un pw de).2.1 = some
      { id := db.next_id, host := h, port := p, country := c,
        country_code := cc, city := ci, username := un, password := pw,
        added_on := now, last_use := none, last_check := none,
        operational := oper, bandwidth := none, connect_time := none,
        description := de } := by
  refine ⟨rfl, ?_⟩
  unfold view_socks5 add_socks5
  simp only
  rw [List.find?_append]
  have hnone : db.socks5s.find? (fun r => r.id == db.next_id) = none :=
    List.find?_eq_none.mpr (fun r hr => by
      simpa using Nat.ne_of_lt (hwf r hr))
  rw [hnone]
  simp

/-- Witness for C9: adding to the empty store and viewing id 1. -/
theorem C9_witness :
    (add_socks5 ⟨[], 1⟩ 7 "5.6.7.8" 1080 "Germany" "DE" true (some "Berlin")
      none none none).1 = true ∧
    view_socks5 (add_socks5 ⟨[], 1⟩ 7 "5.6.7.8" 1080 "Germany" "DE" true
        (some "Berlin") none none none).2.2
      (add_socks5 ⟨[], 1⟩ 7 "5.6.7.8" 1080 "Germany" "DE" true
        (some "Berlin") none none none).2.1 = some
      { id := 1, host := "5.6.7.8", port := 1080, country := "Germany",
        country_code := "DE", city := some "Berlin", username := none,
        password := none, added_on := 7, last_use := none,
        last_check := none, operational := true, bandwidth := none,
        connect_time := none, description := none } :=
  C9_add_view_roundtrip ⟨[], 1⟩ 7 "5.6.7.8" 1080 "Germany" "DE" true
    (some "Berlin") none none none (by decide)

/-- C6: with update_usage = false, find_socks5 leaves the store (hence
every field of every record) unchanged, and when exactly one record
passes the filters, that record is returned, and so is it by any repeated
identical call on the resulting store. -/
theorem C6_find_no_usage_update (db : Database) (now : Nat)
    (co cc ci : Option String) (mb mc : Option Rat) (lim : Nat) :
    (find_socks5 db now co cc ci mb mc false lim).2 = db ∧
    (∀ r, db.socks5s.filter (findMatch co cc ci mb mc) = [r] → 1 ≤ lim →
      (find_socks5 db now co cc ci mb mc false lim).1 = [r] ∧
      ∀ now2 : Nat,
        (find_socks5 (find_socks5 db now co cc ci mb mc false lim).2 now2
          co cc ci mb mc false lim).1 = [r]) := by
  have hsnd : (find_socks5 db now co cc ci mb mc false lim).2 = db := by
    rw [find_socks5_snd]
    simp
  have hfst : ∀ n2 : Nat, (find_socks5 db n2 co cc ci mb mc false lim).1 =
      find_select db co cc ci mb mc lim := by
    intro n2
    rw [find_socks5_fst]
    simp
  refine ⟨hsnd, ?_⟩
  intro r hone hlim
  have hsel : find_select db co cc ci mb mc lim = [r] := by
    unfold find_select
    rw [hone, List.mergeSort_singleton]
    cases lim with
    | zero => omega
    | succ n => simp
  exact ⟨(hfst now).trans hsel, fun now2 => by rw [hsnd, hfst now2, hsel]⟩

/-- Modelled from the spec's ordering words: x strictly precedes y as
values of `lastUse` ascending, with NULL sorting before any non-NULL
value. -/
def specLuBefore (x y : Option Nat) : Prop :=
  (x = none ∧ y ≠ none) ∨ (∃ m n, x = some m ∧ y = some n ∧ m < n)

/-- Modelled from the spec's ordering words: x strictly precedes y as
values of `lastCheck` descending (most recent first, NULL last). -/
def specLcBefore (x y : Option Nat) : Prop :=
  (∃ m n, x = some m ∧ y = some n ∧ n < m) ∨ (x ≠ none ∧ y = none)

/-- Modelled from the spec's ordering words: record a comes no later than
record b when a's lastUse strictly precedes (ascending, NULL first), or
the lastUse values tie and a's lastCheck strictly precedes (descending),
or both keys tie. -/
def specOrder (a b : Socks5) : Prop :=
  specLuBefore a.last_use b.last_use ∨
  (a.last_use = b.last_use ∧ specLcBefore a.last_check b.last_check) ∨
  (a.last_use = b.last_use ∧ a.last_check = b.last_check)

theorem optLe_refl (x : Option Nat) : optLe x x = true := by
  cases x <;> simp [optLe]

theorem specLuBefore_iff (x y : Option Nat) :
    specLuBefore x y ↔ (optLe x y = true ∧ x ≠ y) := by
  cases x <;> cases y <;> simp [specLuBefore, optLe]
  omega

theorem specLcBefore_iff (x y : Option Nat) :
    specLcBefore x y ↔ (optLe y x = true ∧ x ≠ y) := by
  cases x <;> cases y <;> simp [specLcBefore, optLe]
  omega

/-- The executable comparator agrees exactly with the spec's description
of the ORDER BY. -/
theorem findLe_iff_specOrder (a b : Socks5) :
    findLe a b = true ↔ specOrder a b := by
  unfold findLe specOrder
  by_cases h : a.last_use = b.last_use
  · rw [if_pos h]
    constructor
    · intro hle
      by_cases hc : a.last_check = b.last_check
      · exact Or.inr (Or.inr ⟨h, hc⟩)
      · exact Or.inr (Or.inl ⟨h, (specLcBefore_iff _ _).mpr ⟨hle, hc⟩⟩)
    · rintro (hlu | ⟨_, hlc⟩ | ⟨_, hlc⟩)
      · exact absurd h ((specLuBefore_iff _ _).mp hlu).2
      · exact ((specLcBefore_iff _ _).mp hlc).1
      · rw [hlc]
        exact optLe_refl _
  · rw [if_neg h]
    constructor
    · intro hle
      exact Or.inl ((specLuBefore_iff _ _).mpr ⟨hle, h⟩)
    · rintro (hlu | ⟨heq, _⟩ | ⟨heq, _⟩)
      · exact ((specLuBefore_iff _ _).mp hlu).1
      · exact absurd heq h
      · exact absurd heq h

/-- C2: the records find_socks5 returns are exactly the first `limit` of
the filtered candidates ordered by lastUse ascending (NULL first) with
ties broken by lastCheck descending: the returned list is pairwise in the
spec's order, has length min(limit, candidates), and every candidate left
out comes no earlier in that order than every record returned; the
returned rows are those of the pure query for both update_usage values
(modulo the usage stamp, which preserves ids). -/
theorem C2_find_select_order (db : Database) (now : Nat)
    (co cc ci : Option String) (mb mc : Option Rat) (lim : Nat) :
    List.Pairwise specOrder (find_select db co cc ci mb mc lim) ∧
    (find_select db co cc ci mb mc lim).length =
      min lim (db.socks5s.filter (findMatch co cc ci mb mc)).length ∧
    (∃ rest,
      (find_select db co cc ci mb mc lim ++ rest).Perm
        (db.socks5s.filter (findMatch co cc ci mb mc)) ∧
      ∀ a ∈ find_select db co cc ci mb mc lim, ∀ b ∈ rest, specOrder a b) ∧
    (find_socks5 db now co cc ci mb mc false lim).1 =
      find_select db co cc ci mb mc lim ∧
    (find_socks5 db now co cc ci mb mc true lim).1.map (fun r => r.id) =
      (find_select db co cc ci mb mc lim).map (fun r => r.id) := by
  have hsorted := List.sorted_mergeSort findLe_trans findLe_total
    (db.socks5s.filter (findMatch co cc ci mb mc))
  refine ⟨?_, ?_, ?_, ?_, ?_⟩
  · exact (List.Pairwise.sublist (List.take_sublist _ _) hsorted).imp
      (fun h => (findLe_iff_specOrder _ _).mp h)
  · simp [find_select]
  · refine ⟨((db.socks5s.filter (findMatch co cc ci mb mc)).mergeSort
      findLe).drop lim, ?_, ?_⟩
    · unfold find_select
      rw [List.take_append_drop]
      exact List.mergeSort_perm _ findLe
    · have hsplit := hsorted
      rw [← List.take_append_drop lim ((db.socks5s.filter
        (findMatch co cc ci mb mc)).mergeSort findLe)] at hsplit
      have hcross := (List.pairwise_append.mp hsplit).2.2
      exact fun a ha b hb => (findLe_iff_specOrder _ _).mp (hcross a ha b hb)
  · rw [find_socks5_fst]
    simp
  · rw [find_socks5_fst]
    by_cases he : (find_select db co cc ci mb mc lim).isEmpty
    · simp [he]
    · simp [he, stampUsage, List.map_map, Function.comp]

/-- C4 counterexample: a provided empty-string country filter is falsy in
Python, so the `filter_by` guard is skipped and list_socks5 returns a
record whose country is not the empty string — the record does not
satisfy the provided equality predicate. -/
theorem C4_counterexample :
    rA ∈ list_socks5 ⟨[rA], 2⟩ (some "") none none 500 ∧
    rA.country ≠ "" := by
  decide

theorem listMatch_parts {co cc ci : Option String} {r : Socks5}
    (h : listMatch co cc ci r = true) :
    strFilter co r.country = true ∧ strFilter cc r.country_code = true ∧
    nullableStrFilter ci r.city = true := by
  simp only [listMatch, Bool.and_eq_true] at h
  exact ⟨h.1.1, h.1.2, h.2⟩

theorem findMatch_parts {co cc ci : Option String} {mb mc : Option Rat}
    {r : Socks5} (h : findMatch co cc ci mb mc r = true) :
    strFilter co r.country = true ∧ strFilter cc r.country_code = true ∧
    nullableStrFilter ci r.city = true ∧
    minBandwidthFilter mb r.bandwidth = true ∧
    maxConnectTimeFilter mc r.connect_time = true := by
  simp only [findMatch, Bool.and_eq_true] at h
  exact ⟨h.1.1.1.1.2, h.1.1.1.2, h.1.1.2, h.1.2, h.2⟩

theorem strFilter_spec {arg : Option String} {field s : String}
    (h : strFilter arg field = true) (ha : arg = some s) (hs : s ≠ "") :
    field = s := by
  subst ha
  simp [strFilter, truthyStr, hs] at h
  exact h.symm

theorem nullableStrFilter_spec {arg field : Option String} {s : String}
    (h : nullableStrFilter arg field = true) (ha : arg = some s)
    (hs : s ≠ "") : field = some s := by
  subst ha
  simpa [nullableStrFilter, truthyStr, hs] using h

theorem minBandwidthFilter_spec {arg field : Option Rat} {q : Rat}
    (h : minBandwidthFilter arg field = true) (ha : arg = some q)
    (hq : q ≠ 0) : ∃ b, field = some b ∧ q ≤ b := by
  subst ha
  cases field with
  | none => simp [minBandwidthFilter, truthyFloat, hq] at h
  | some b =>
    refine ⟨b, rfl, ?_⟩
    simpa [minBandwidthFilter, truthyFloat, hq] using h

theorem maxConnectTimeFilter_spec {arg field : Option Rat} {q : Rat}
    (h : maxConnectTimeFilter arg field = true) (ha : arg = some q)
    (hq : q ≠ 0) : ∃ t, field = some t ∧ t ≤ q := by
  subst ha
  cases field with
  | none => simp [maxConnectTimeFilter, truthyFloat, hq] at h
  | some t =>
    refine ⟨t, rfl, ?_⟩
    simpa [maxConnectTimeFilter, truthyFloat, hq] using h

/-- C4 amended: filter values provided as the empty string or zero are
ignored (Python truthiness); every record returned by list_socks5
satisfies the equality predicate of each filter provided as a non-empty
string, and every record returned by find_socks5 additionally has
non-NULL bandwidth >= minBandwidth when a nonzero minBandwidth is
provided and non-NULL connectTime <= maxConnectTime when a nonzero
maxConnectTime is provided. -/
theorem C4_amended_filter_correct (db : Database) (now : Nat)
    (co cc ci : Option String) (mb mc : Option Rat) (u : Bool)
    (lim lim2 : Nat) :
    (∀ r ∈ list_socks5 db co cc ci lim,
      (∀ s, co = some s → s ≠ "" → r.country = s) ∧
      (∀ s, cc = some s → s ≠ "" → r.country_code = s) ∧
      (∀ s, ci = some s → s ≠ "" → r.city = some s)) ∧
    (∀ r ∈ (find_socks5 db now co cc ci mb mc u lim2).1,
      (∀ s, co = some s → s ≠ "" → r.country = s) ∧
      (∀ s, cc = some s → s ≠ "" → r.country_code = s) ∧
      (∀ s, ci = some s → s ≠ "" → r.city = some s) ∧
      (∀ q, mb = some q → q ≠ 0 → ∃ b, r.bandwidth = some b ∧ q ≤ b) ∧
      (∀ q, mc = some q → q ≠ 0 → ∃ t, r.connect_time = some t ∧ t ≤ q)) := by
  constructor
  · intro r hr
    have hm : listMatch co cc ci r = true :=
      List.of_mem_filter (List.mem_of_mem_take hr)
    obtain ⟨h1, h2, h3⟩ := listMatch_parts hm
    exact ⟨fun s ha hs => strFilter_spec h1 ha hs,
      fun s ha hs => strFilter_spec h2 ha hs,
      fun s ha hs => nullableStrFilter_spec h3 ha hs⟩
  · intro r hr
    have key : ∃ r', findMatch co cc ci mb mc r' = true ∧
        r.country = r'.country ∧ r.country_code = r'.country_code ∧
        r.city = r'.city ∧ r.bandwidth = r'.bandwidth ∧
        r.connect_time = r'.connect_time := by
      rw [find_socks5_fst] at hr
      split at hr
      · obtain ⟨r', hmem, rfl⟩ := List.mem_map.mp hr
        exact ⟨r', (mem_find_select hmem).1, rfl, rfl, rfl, rfl, rfl⟩
      · exact ⟨r, (mem_find_select hr).1, rfl, rfl, rfl, rfl, rfl⟩
    obtain ⟨r', hm, hco, hcc, hci, hb, hct⟩ := key
    obtain ⟨f1, f2, f3, f4, f5⟩ := findMatch_parts hm
    refine ⟨fun s ha hs => ?_, fun s ha hs => ?_, fun s ha hs => ?_,
      fun q ha hq => ?_, fun q ha hq => ?_⟩
    · rw [hco]
      exact strFilter_spec f1 ha hs
    · rw [hcc]
      exact strFilter_spec f2 ha hs
    · rw [hci]
      exact nullableStrFilter_spec f3 ha hs
    · rw [hb]
      exact minBandwidthFilter_spec f4 ha hq
    · rw [hct]
      exact maxConnectTimeFilter_spec f5 ha hq

/-- Strict version of the SQLite NULL-first timestamp order. -/
def optLt (x y : Option Nat) : Bool :=
  optLe x y && !(optLe y x)

theorem optLt_iff {x y : Option Nat} :
    optLt x y = true ↔ (optLe x y = true ∧ x ≠ y) := by
  unfold optLt
  rw [Bool.and_eq_true, Bool.not_eq_true']
  constructor
  · rintro ⟨h1, h2⟩
    refine ⟨h1, fun he => ?_⟩
    subst he
    simp [optLe_refl] at h2
  · rintro ⟨h1, h2⟩
    refine ⟨h1, ?_⟩
    by_contra hc
    rw [Bool.not_eq_false] at hc
    exact h2 (optLe_antisymm h1 hc)

/-- With no filters given, the find query's predicate degenerates to the
operational flag, so it keeps an all-operational store whole. -/
theorem filter_findMatch_all (db : Database)
    (hop : ∀ r ∈ db.socks5s, r.operational = true) :
    db.socks5s.filter (findMatch none none none none none) = db.socks5s :=
  List.filter_eq_self.mpr (fun r hr => by
    simp [findMatch, strFilter, nullableStrFilter, minBandwidthFilter,
      maxConnectTimeFilter, truthyStr, truthyFloat, hop r hr])

/-- One rotation step: find_socks5 with no filters, limit 1 and usage
stamping on, at the given clock. -/
def findStep (db : Database) (now : Nat) : List Socks5 × Database :=
  find_socks5 db now none none none none none true 1

/-- On an all-operational store in which every record either still has the
common baseline last_use u0 or has been stamped strictly later, one step
returns a baseline (least-recently-used) record and stamps exactly it. -/
theorem findStep_selects_fresh (db : Database) (now : Nat) (u0 : Option Nat)
    (hop : ∀ r ∈ db.socks5s, r.operational = true)
    (hclass : ∀ r ∈ db.socks5s, r.last_use = u0 ∨ optLt u0 r.last_use = true)
    (hex : ∃ r ∈ db.socks5s, r.last_use = u0) :
    ∃ h, h ∈ db.socks5s ∧ h.last_use = u0 ∧
      (findStep db now).1 = [stampUsage now h] ∧
      (findStep db now).2.socks5s = db.socks5s.map
        (fun r => if r.id = h.id then stampUsage now r else r) ∧
      (findStep db now).2.next_id = db.next_id := by
  have hfilter := filter_findMatch_all db hop
  have hsorted := List.sorted_mergeSort findLe_trans findLe_total
    (db.socks5s.filter (findMatch none none none none none))
  rw [hfilter] at hsorted
  obtain ⟨f, hf, hfu⟩ := hex
  have hm : f ∈ db.socks5s.mergeSort findLe := List.mem_mergeSort.mpr hf
  cases hms : db.socks5s.mergeSort findLe with
  | nil => exact absurd (hms ▸ hm) (List.not_mem_nil f)
  | cons hd tl =>
    have hsel : find_select db none none none none none 1 = [hd] := by
      unfold find_select
      rw [hfilter, hms]
      rfl
    have hdmem : hd ∈ db.socks5s := by
      have hmem : hd ∈ db.socks5s.mergeSort findLe := by
        rw [hms]
        exact List.mem_cons_self hd tl
      exact List.mem_mergeSort.mp hmem
    have hdfresh : hd.last_use = u0 := by
      rcases hclass hd hdmem with hgot | hlt
      · exact hgot
      · exfalso
        rw [optLt_iff] at hlt
        have hmf : f ∈ hd :: tl := hms ▸ hm
        rcases List.mem_cons.mp hmf with rfl | hftl
        · exact hlt.2 hfu.symm
        · have hsorted2 : (hd :: tl).Pairwise (fun a b => findLe a b = true) :=
            hms ▸ hsorted
          have hle : findLe hd f = true :=
            (List.pairwise_cons.mp hsorted2).1 f hftl
          have hne2 : hd.last_use ≠ f.last_use := by
            rw [hfu]
            exact fun he => hlt.2 he.symm
          unfold findLe at hle
          rw [if_neg hne2, hfu] at hle
          exact hlt.2 (optLe_antisymm hlt.1 hle)
    refine ⟨hd, hdmem, hdfresh, ?_, ?_, ?_⟩
    · unfold findStep
      rw [find_socks5_fst, hsel]
      simp
    · unfold findStep
      rw [find_socks5_snd, hsel]
      simp only [List.isEmpty_cons, Bool.and_true, Bool.not_false,
        Bool.and_self, if_true, List.map_cons, List.map_nil]
      refine List.map_congr_left (fun a _ => ?_)
      by_cases hid : a.id = hd.id
      · simp [hid]
      · simp [hid]
    · unfold findStep
      rw [find_socks5_snd, hsel]
      simp

/-- The store after k rotation steps, the clock at step i being t i. -/
def rotStates (db : Database) (t : Nat → Nat) : Nat → Database
  | 0 => db
  | k+1 => (findStep (rotStates db t k) (t k)).2

/-- The rows returned at rotation step k. -/
def rotRet (db : Database) (t : Nat → Nat) (k : Nat) : List Socks5 :=
  (findStep (rotStates db t k) (t k)).1

/-- The ids handed out over the first n rotation steps, in order. -/
def rotIds (db : Database) (t : Nat → Nat) : Nat → List Nat
  | 0 => []
  | k+1 => rotIds db t k ++ (rotRet db t k).map (fun r => r.id)

/-- Rotation invariant: after k steps the handed-out ids are k distinct
store ids, the store keeps its ids in order, stays all-operational, and a
record still carries the baseline last_use exactly when its id has not
been handed out. -/
theorem rot_invariant (db : Database) (t : Nat → Nat) (N : Nat)
    (u0 : Option Nat)
    (hrec : ∀ r ∈ db.socks5s, r.operational = true ∧ r.last_use = u0)
    (hlen : db.socks5s.length = N)
    (hnodup : (db.socks5s.map (fun r => r.id)).Nodup)
    (hu0 : ∀ i, i < N → optLt u0 (some (t i)) = true) :
    ∀ k, k ≤ N →
      (rotIds db t k).length = k ∧
      (rotIds db t k).Nodup ∧
      (∀ x ∈ rotIds db t k, x ∈ db.socks5s.map (fun r => r.id)) ∧
      (rotStates db t k).socks5s.map (fun r => r.id) =
        db.socks5s.map (fun r => r.id) ∧
      (∀ r ∈ (rotStates db t k).socks5s, r.operational = true) ∧
      (∀ r ∈ (rotStates db t k).socks5s,
        (r.last_use = u0 ∧ r.id ∉ rotIds db t k) ∨
        (∃ j, j < k ∧ r.last_use = some (t j) ∧ r.id ∈ rotIds db t k)) := by
  intro k
  induction k with
  | zero =>
    intro _
    refine ⟨rfl, List.nodup_nil, ?_, rfl, fun r hr => (hrec r hr).1, ?_⟩
    · intro x hx
      exact absurd hx (List.not_mem_nil x)
    · intro r hr
      exact Or.inl ⟨(hrec r hr).2, List.not_mem_nil _⟩
  | succ k ih =>
    intro hk1
    have hkN : k < N := Nat.lt_of_succ_le hk1
    obtain ⟨ihlen, ihnodup, ihsub, ihids, ihop, ihclass⟩ :=
      ih (Nat.le_of_lt hkN)
    have hex : ∃ r ∈ (rotStates db t k).socks5s, r.last_use = u0 := by
      by_contra hnone
      push_neg at hnone
      have hall : ∀ x ∈ db.socks5s.map (fun r => r.id), x ∈ rotIds db t k := by
        intro x hx
        rw [← ihids] at hx
        obtain ⟨r, hr, rfl⟩ := List.mem_map.mp hx
        rcases ihclass r hr with ⟨hfr, _⟩ | ⟨j, _, _, hin⟩
        · exact absurd hfr (hnone r hr)
        · exact hin
      have hle := (List.subperm_of_subset hnodup hall).length_le
      rw [List.length_map, hlen, ihlen] at hle
      omega
    have hclass2 : ∀ r ∈ (rotStates db t k).socks5s,
        r.last_use = u0 ∨ optLt u0 r.last_use = true := by
      intro r hr
      rcases ihclass r hr with ⟨hfr, _⟩ | ⟨j, hj, hju, _⟩
      · exact Or.inl hfr
      · right
        rw [hju]
        exact hu0 j (by omega)
    obtain ⟨h, hmem, hfreshh, hret, hsnd, _⟩ :=
      findStep_selects_fresh (rotStates db t k) (t k) u0 ihop hclass2 hex
    have hids_eq : rotIds db t (k+1) = rotIds db t k ++ [h.id] := by
      show rotIds db t k ++ (rotRet db t k).map (fun r => r.id) = _
      unfold rotRet
      rw [hret]
      rfl
    have hnotin : h.id ∉ rotIds db t k := by
      rcases ihclass h hmem with ⟨_, hno⟩ | ⟨j, hj, hju, _⟩
      · exact hno
      · exfalso
        have hlt := hu0 j (by omega)
        rw [optLt_iff] at hlt
        exact hlt.2 (hfreshh.symm.trans hju)
    have hidh : h.id ∈ db.socks5s.map (fun r => r.id) := by
      rw [← ihids]
      exact List.mem_map.mpr ⟨h, hmem, rfl⟩
    have hstate : (rotStates db t (k+1)).socks5s =
        (rotStates db t k).socks5s.map
          (fun r => if r.id = h.id then stampUsage (t k) r else r) := hsnd
    have hids1 : (rotStates db t (k+1)).socks5s.map (fun r => r.id) =
        db.socks5s.map (fun r => r.id) := by
      rw [hstate, List.map_map, ← ihids]
      refine List.map_congr_left (fun a _ => ?_)
      by_cases hid : a.id = h.id
      · simp [Function.comp, hid, stampUsage]
      · simp [Function.comp, hid]
    refine ⟨?_, ?_, ?_, hids1, ?_, ?_⟩
    · rw [hids_eq, List.length_append, ihlen]
      rfl
    · rw [hids_eq, List.nodup_append]
      exact ⟨ihnodup, List.nodup_singleton _, by
        intro x hx hx1
        rw [List.mem_singleton] at hx1
        exact hnotin (hx1 ▸ hx)⟩
    · intro x hx
      rw [hids_eq, List.mem_append] at hx
      rcases hx with hx | hx
      · exact ihsub x hx
      · rw [List.mem_singleton] at hx
        exact hx ▸ hidh
    · intro r hr
      rw [hstate] at hr
      obtain ⟨a, ha, rfl⟩ := List.mem_map.mp hr
      by_cases hid : a.id = h.id
      · simpa [hid, stampUsage] using ihop a ha
      · simpa [hid] using ihop a ha
    · intro r hr
      rw [hstate] at hr
      obtain ⟨a, ha, rfl⟩ := List.mem_map.mp hr
      by_cases hid : a.id = h.id
      · right
        refine ⟨k, Nat.lt_succ_self k, ?_, ?_⟩
        · simp [hid, stampUsage]
        · rw [hids_eq, List.mem_append]
          right
          simp [hid, stampUsage]
      · rw [if_neg hid]
        rcases ihclass a ha with ⟨hfr, hno⟩ | ⟨j, hj, hju, hin⟩
        · left
          refine ⟨hfr, ?_⟩
          rw [hids_eq, List.mem_append]
          rintro (hc | hc)
          · exact hno hc
          · rw [List.mem_singleton] at hc
            exact hid hc
        · right
          exact ⟨j, by omega, hju, by
            rw [hids_eq, List.mem_append]
            exact Or.inl hin⟩

/-- C3: starting from a store of exactly N operational records with a
common last_use and a common last_check, N sequential calls of
find_socks5 with limit 1 and update_usage on, at strictly advancing
clocks, hand out N pairwise-distinct record ids. -/
theorem C3_rotation (db : Database) (t : Nat → Nat) (N : Nat)
    (u0 c0 : Option Nat)
    (_hN : 2 ≤ N)
    (hlen : db.socks5s.length = N)
    (hnodup : (db.socks5s.map (fun r => r.id)).Nodup)
    (hrec : ∀ r ∈ db.socks5s, r.operational = true ∧ r.last_use = u0 ∧
      r.last_check = c0)
    (_ht : ∀ i, i < N → ∀ j, j < i → t j < t i)
    (hu0 : ∀ i, i < N → optLt u0 (some (t i)) = true) :
    (rotIds db t N).length = N ∧ (rotIds db t N).Nodup := by
  have hinv := rot_invariant db t N u0
    (fun r hr => ⟨(hrec r hr).1, (hrec r hr).2.1⟩) hlen hnodup hu0 N
    (Nat.le_refl N)
  exact ⟨hinv.1, hinv.2.1⟩

/-- Second record for the rotation witness, identical to rA in its usage
and check keys. -/
def rB : Socks5 :=
  { id := 2, host := "5.6.7.8", port := 1080, country := "Germany",
    country_code := "DE", city := none, username := none, password := none,
    added_on := 0, last_use := none, last_check := none, operational := true,
    bandwidth := none, connect_time := none, description := none }

/-- Witness for C3: two never-used operational records, two calls at
clocks 10 and 11, two distinct ids. -/
theorem C3_witness :
    (rotIds ⟨[rA, rB], 3⟩ (fun i => i + 10) 2).length = 2 ∧
    (rotIds ⟨[rA, rB], 3⟩ (fun i => i + 10) 2).Nodup :=
  C3_rotation ⟨[rA, rB], 3⟩ (fun i => i + 10) 2 none none (by decide)
    (by decide) (by decide) (by decide) (by decide) (by decide)
